import Mathlib

/-!
Verification development for the topgrade step-execution engine.

The source of truth is `src/main.rs` (the top-level driver `run` and `main`).
Supporting modules (`runner.rs`, `report.rs`, `executor.rs`, `config.rs`,
`sudo.rs`, `error.rs`) are not part of the provided sources; where a
definition embeds one of them it is modelled from the specification and
carries a doc comment saying so.  Everything else is translated directly
from `main.rs`.

Platform-conditional compilation (`#[cfg(...)]` blocks) is modelled by a
`Platform` parameter.  The `self-update` feature and the Windows-only
`Upgraded` error are feature-gated out (the build without the
`self-update` feature), matching the specification's scope which excludes
self-update logic from the core.
-/

namespace Topgrade

/-- Step identities, one per `Step::...` variant used by `main.rs`
(the `Step` enum itself lives in `config.rs`, which is not in the provided
sources; the set of variants below is exactly the set referenced by
`main.rs`). -/
inductive Step
  | SelfUpdate
  | Wsl
  | WslUpdate
  | Chocolatey
  | Scoop
  | Winget
  | System
  | MicrosoftStore
  | Shell
  | ConfigUpdate
  | AM
  | AppMan
  | DebGet
  | Toolbx
  | Snap
  | Pacstall
  | Pacdef
  | Protonup
  | Distrobox
  | DkpPacman
  | Firmware
  | Restarts
  | Flatpak
  | BrewFormula
  | Lure
  | Waydroid
  | AutoCpufreq
  | CinnamonSpices
  | BrewCask
  | Macports
  | Xcodes
  | Sparkle
  | Mas
  | Pkg
  | Audit
  | Yadm
  | Nix
  | NixHelper
  | Guix
  | HomeManager
  | Asdf
  | Mise
  | Pkgin
  | BunPackages
  | Tmux
  | Tldr
  | Pearl
  | GnomeShellExtensions
  | Pyenv
  | Sdkman
  | Rcm
  | Maza
  | Atom
  | Fossil
  | Elan
  | Rye
  | Rustup
  | Juliaup
  | Dotnet
  | Choosenim
  | Cargo
  | Flutter
  | Go
  | Emacs
  | Opam
  | Vcpkg
  | Pipx
  | Pipxu
  | Vscode
  | Vscodium
  | Conda
  | Mamba
  | Pixi
  | Miktex
  | Pip3
  | PipReview
  | PipReviewLocal
  | Pipupgrade
  | Ghcup
  | Stack
  | Tlmgr
  | Myrepos
  | Chezmoi
  | Jetpack
  | Vim
  | Kakoune
  | Helix
  | Node
  | Yarn
  | Pnpm
  | VoltaPackages
  | Containers
  | Deno
  | Composer
  | Krew
  | Helm
  | Gem
  | RubyGems
  | Julia
  | Haxelib
  | Sheldon
  | Stew
  | Rtcl
  | Bin
  | Gcloud
  | Micro
  | Raco
  | Spicetify
  | GithubCliExtensions
  | Bob
  | Certbot
  | GitRepos
  | ClamAvDb
  | PlatformioCore
  | Lensfun
  | Poetry
  | Uv
  | Zvm
  | Aqua
  | Bun
  | Zigup
  | JetbrainsToolbox
  | AndroidStudio
  | JetbrainsAqua
  | JetbrainsClion
  | JetbrainsDatagrip
  | JetbrainsDataspell
  | JetbrainsGateway
  | JetbrainsGoland
  | JetbrainsIdea
  | JetbrainsMps
  | JetbrainsPhpstorm
  | JetbrainsPycharm
  | JetbrainsRider
  | JetbrainsRubymine
  | JetbrainsRustrover
  | JetbrainsWebstorm
  | Yazi
  | Powershell
  | Remotes
  | CustomCommands
  | Vagrant
  deriving DecidableEq

/-- Modelled from the spec: `report.rs` is not in the provided sources.
StepOutcome is one of Success, Failure, Skipped (spec section 3). -/
inductive StepOutcome
  | success
  | failure
  | skipped
  deriving DecidableEq

/-- Modelled from the spec: `report.rs` is not in the provided sources.
`result.failed()` as used by `main.rs` line 578: only a `Failure`
outcome counts as failed ("Skipped entries are never failures"). -/
def StepOutcome.failed : StepOutcome → Bool
  | .failure => true
  | _ => false

/-- Modelled from the spec: `executor.rs` is not in the provided sources.
RunMode / RunType is one of Simulate, Execute (spec section 3). -/
inductive RunType
  | Simulate
  | Execute
  deriving DecidableEq

/-- `RunType::new(config.dry_run())` from `main.rs` line 145: dry-run makes
the run type Simulate. -/
def RunType.new (dry_run : Bool) : RunType :=
  if dry_run then .Simulate else .Execute

/-- The compilation targets distinguished by the `#[cfg(...)]` blocks of
`main.rs`. -/
inductive Platform
  | windows
  | linux
  | macos
  | dragonfly
  | freebsd
  | openbsd
  | netbsd
  | android
  deriving DecidableEq

/-- `#[cfg(unix)]`: every target except Windows. -/
def Platform.isUnix : Platform → Bool
  | .windows => false
  | _ => true

/-- `#[cfg(not(any(freebsd, openbsd, netbsd, dragonfly)))]` guard on the
`apm` step (`main.rs` lines 353-361). -/
def Platform.isBsd : Platform → Bool
  | .freebsd => true
  | .openbsd => true
  | .netbsd => true
  | .dragonfly => true
  | _ => false

/-- Modelled from the spec: `sudo.rs` is not in the provided sources.
Result of resolving/activating the elevation helper (spec section 4.2):
either elevation is in place or it was denied / failed. -/
inductive ElevateResult
  | elevated
  | denied
  deriving DecidableEq

/-- Modelled from the spec: `sudo.rs` is not in the provided sources.
The elevation cache: `cached` is the write-once resolved state, and
`resolutions` counts how many times the (possibly interactive) resolution
was actually performed. -/
structure SudoState where
  cached : Option ElevateResult
  resolutions : Nat
  deriving DecidableEq

def SudoState.init : SudoState := ⟨none, 0⟩

/-- Modelled from the spec: `sudo.rs` is not in the provided sources.
`elevate` (spec section 4.2): called lazily; if the state is still
unresolved it resolves it (the environment supplies the fresh outcome
`fresh`); subsequent calls are no-ops returning the cached result. -/
def elevate (fresh : ElevateResult) (s : SudoState) : ElevateResult × SudoState :=
  match s.cached with
  | some r => (r, s)
  | none => (fresh, ⟨some fresh, s.resolutions + 1⟩)

/-- Repeated elevation requests, in order. -/
def elevateMany : List ElevateResult → SudoState → SudoState
  | [], s => s
  | f :: fs, s => elevateMany fs (elevate f s).2

/-- The read-only view of the loaded configuration, restricted to the
fields `main.rs` consults after `Config::load`.  The enablement
predicates (`should_run`, `should_run_custom_command`, the per-host
remote enablement) live in `config.rs`, which is not in the provided
sources, and are therefore abstract boolean predicates here. -/
structure Config where
  dry_run : Bool
  pre_commands : List String
  post_commands : List String
  commands : List String
  should_run : Step → Bool
  should_run_custom_command : String → Bool
  remote_topgrades : Option (List String)
  remote_enabled : String → Bool
  pre_sudo : Bool
  keep_at_end : Bool
  skip_notify : Bool
  platform : Platform

/-- `RunType::new(config.dry_run())` (`main.rs` line 145). -/
def runTypeOf (cfg : Config) : RunType := RunType.new cfg.dry_run

/-- Modelled from the spec: `config.rs` is not in the provided sources.
`Config::should_execute_remote(hostname(), t)` (used at `main.rs` line
197): the predicate excludes the current host itself, to prevent infinite
recursion when the local hostname matches a configured target, and
consults the per-host enable predicate (spec sections 4.5 and 6). -/
def should_execute_remote (cfg : Config) (hostname target : String) : Bool :=
  (decide (target ≠ hostname)) && cfg.remote_enabled target

/-- Result of one step body as observed by the Runner: success, a
step-level error (converted to a Failure entry), or a "not applicable"
error (tool absent / nothing to do, converted to a Skipped entry). -/
inductive BodyRes
  | ok
  | err
  | notApplicable
  deriving DecidableEq

/-- The ambient world of one concrete run: everything outside the program
that determines its behaviour (step body outcomes indexed by invocation
number, the cooperative cancellation flag sampled at step boundaries,
the local hostname, probe results, prompt answers, custom command
outcomes). -/
structure Env where
  body : Nat → BodyRes
  cancelled : Nat → Bool
  hostname : String
  distributionOk : Bool
  powershellProfile : Bool
  breakingPromptNeeded : Bool
  confirmed : Bool
  preOk : Nat → Bool
  postOk : Nat → Bool
  sudoDetected : Bool
  elevateFresh : ElevateResult
  vagrantCollectOk : Bool
  vagrantBoxes : List String

/-! ## The step catalog of `run()` (`main.rs` lines 196-533)

Each entry is a `runner.execute(Step::X, label, body)` call, in source
order.  The `#[cfg(...)]` blocks become functions of the `Platform`. -/

/-- `#[cfg(windows)]` block, `main.rs` lines 204-215. -/
def windowsEntries : List (Step × String) :=
  [(.Wsl, "WSL"), (.WslUpdate, "WSL"), (.Chocolatey, "Chocolatey"),
   (.Scoop, "Scoop"), (.Winget, "Winget"), (.System, "Windows update"),
   (.MicrosoftStore, "Microsoft Store")]

/-- `#[cfg(target_os = "linux")]` block, `main.rs` lines 217-257.  The
`System` entry is executed only when `Distribution::detect()` succeeded
(the `Err` arm only prints a message). -/
def linuxEntries (distributionOk : Bool) : List (Step × String) :=
  [(.Shell, "packer.nu")] ++
  (if distributionOk then [(.System, "System update")] else []) ++
  [(.ConfigUpdate, "config-update"), (.AM, "am"), (.AppMan, "appman"),
   (.DebGet, "deb-get"), (.Toolbx, "toolbx"), (.Snap, "snap"),
   (.Pacstall, "pacstall"), (.Pacdef, "pacdef"), (.Protonup, "protonup"),
   (.Distrobox, "distrobox"), (.DkpPacman, "dkp-pacman"),
   (.System, "pihole"), (.Firmware, "Firmware upgrades"),
   (.Restarts, "Restarts"), (.Flatpak, "Flatpak"), (.BrewFormula, "Brew"),
   (.Lure, "LURE"), (.Waydroid, "Waydroid"),
   (.AutoCpufreq, "auto-cpufreq"), (.CinnamonSpices, "Cinnamon spices")]

/-- `#[cfg(target_os = "macos")]` block, `main.rs` lines 259-284. -/
def macosEntries : List (Step × String) :=
  [(.BrewFormula, "Brew (ARM)"), (.BrewFormula, "Brew (Intel)"),
   (.BrewFormula, "Brew"), (.BrewCask, "Brew Cask (ARM)"),
   (.BrewCask, "Brew Cask (Intel)"), (.BrewCask, "Brew Cask"),
   (.Macports, "MacPorts"), (.Xcodes, "Xcodes"), (.Sparkle, "Sparkle"),
   (.Mas, "App Store"), (.System, "System upgrade")]

/-- `#[cfg(target_os = "dragonfly")]` block, `main.rs` lines 286-292. -/
def dragonflyEntries : List (Step × String) :=
  [(.Pkg, "DragonFly BSD Packages"), (.Audit, "DragonFly Audit")]

/-- `#[cfg(target_os = "freebsd")]` block, `main.rs` lines 294-299. -/
def freebsdEntries : List (Step × String) :=
  [(.Pkg, "FreeBSD Packages"), (.System, "FreeBSD Upgrade"),
   (.Audit, "FreeBSD Audit")]

/-- `#[cfg(target_os = "openbsd")]` block, `main.rs` lines 301-305. -/
def openbsdEntries : List (Step × String) :=
  [(.Pkg, "OpenBSD Packages"), (.System, "OpenBSD Upgrade")]

/-- `#[cfg(target_os = "android")]` block, `main.rs` lines 307-310. -/
def androidEntries : List (Step × String) :=
  [(.Pkg, "Termux Packages")]

/-- The platform-specific step group: the union of the `#[cfg]` blocks of
`main.rs` lines 204-310, exactly one of which is compiled in. -/
def platformEntries : Platform → Bool → List (Step × String)
  | .windows, _ => windowsEntries
  | .linux, d => linuxEntries d
  | .macos, _ => macosEntries
  | .dragonfly, _ => dragonflyEntries
  | .freebsd, _ => freebsdEntries
  | .openbsd, _ => openbsdEntries
  | .android, _ => androidEntries
  | .netbsd, _ => []

/-- `#[cfg(unix)]` block, `main.rs` lines 312-351.  The Gnome Shell
Extensions entry is additionally guarded by
`#[cfg(not(any(target_os = "macos", target_os = "android")))]`. -/
def unixCommonEntries (p : Platform) : List (Step × String) :=
  [(.Yadm, "yadm"), (.Nix, "nix"), (.Nix, "nix upgrade-nix"),
   (.NixHelper, "nh"), (.Guix, "guix"), (.HomeManager, "home-manager"),
   (.Asdf, "asdf"), (.Mise, "mise"), (.Pkgin, "pkgin"),
   (.BunPackages, "bun-packages"), (.Shell, "zr"), (.Shell, "antibody"),
   (.Shell, "antidote"), (.Shell, "antigen"), (.Shell, "zgenom"),
   (.Shell, "zplug"), (.Shell, "zinit"), (.Shell, "zi"), (.Shell, "zim"),
   (.Shell, "oh-my-zsh"), (.Shell, "oh-my-bash"), (.Shell, "fisher"),
   (.Shell, "bash-it"), (.Shell, "oh-my-fish"), (.Shell, "fish-plug"),
   (.Shell, "fundle"), (.Tmux, "tmux"), (.Tldr, "TLDR"),
   (.Pearl, "pearl")] ++
  (if p = .macos ∨ p = .android then []
   else [(.GnomeShellExtensions, "Gnome Shell Extensions")]) ++
  [(.Pyenv, "pyenv"), (.Sdkman, "SDKMAN!"), (.Rcm, "rcm"), (.Maza, "maza")]

def unixEntries (p : Platform) : List (Step × String) :=
  if p.isUnix then unixCommonEntries p else []

/-- `main.rs` lines 353-361: `apm`, excluded on the BSDs. -/
def apmEntries (p : Platform) : List (Step × String) :=
  if p.isBsd then [] else [(.Atom, "apm")]

/-- The label of the Lensfun entry contains an apostrophe in the source. -/
def lensfunLabel : String :=
  "Lensfun" ++ (Char.ofNat 39).toString ++ "s database update"

set_option maxHeartbeats 2000000 in
/-- The cross-platform (generic) step group, `main.rs` lines 364-506,
executed on all OSes, in source order. -/
def genericEntries : List (Step × String) :=
  [(.Fossil, "fossil"), (.Elan, "elan"), (.Rye, "rye"),
   (.Rustup, "rustup"), (.Juliaup, "juliaup"), (.Dotnet, ".NET"),
   (.Choosenim, "choosenim"), (.Cargo, "cargo"), (.Flutter, "Flutter"),
   (.Go, "go-global-update"), (.Go, "gup"), (.Emacs, "Emacs"),
   (.Opam, "opam"), (.Vcpkg, "vcpkg"), (.Pipx, "pipx"),
   (.Pipxu, "pipxu"), (.Vscode, "Visual Studio Code extensions"),
   (.Vscodium, "VSCodium extensions"), (.Conda, "conda"),
   (.Mamba, "mamba"), (.Pixi, "pixi"), (.Miktex, "miktex"),
   (.Pip3, "pip3"), (.PipReview, "pip-review"),
   (.PipReviewLocal, "pip-review (local)"), (.Pipupgrade, "pipupgrade"),
   (.Ghcup, "ghcup"), (.Stack, "stack"), (.Tlmgr, "tlmgr"),
   (.Myrepos, "myrepos"), (.Chezmoi, "chezmoi"), (.Jetpack, "jetpack"),
   (.Vim, "vim"), (.Vim, "Neovim"), (.Vim, "The Ultimate vimrc"),
   (.Vim, "voom"), (.Kakoune, "Kakoune"), (.Helix, "helix"),
   (.Node, "npm"), (.Yarn, "yarn"), (.Pnpm, "pnpm"),
   (.VoltaPackages, "volta packages"), (.Containers, "Containers"),
   (.Deno, "deno"), (.Composer, "composer"), (.Krew, "krew"),
   (.Helm, "helm"), (.Gem, "gem"), (.RubyGems, "rubygems"),
   (.Julia, "julia"), (.Haxelib, "haxelib"), (.Sheldon, "sheldon"),
   (.Stew, "stew"), (.Rtcl, "rtcl"), (.Bin, "bin"), (.Gcloud, "gcloud"),
   (.Micro, "micro"), (.Raco, "raco"), (.Spicetify, "spicetify"),
   (.GithubCliExtensions, "GitHub CLI Extensions"), (.Bob, "Bob"),
   (.Certbot, "Certbot"), (.GitRepos, "Git Repositories"),
   (.ClamAvDb, "ClamAV Databases"), (.PlatformioCore, "PlatformIO Core"),
   (.Lensfun, lensfunLabel), (.Poetry, "Poetry"), (.Uv, "uv"),
   (.Zvm, "ZVM"), (.Aqua, "aqua"), (.Bun, "bun"), (.Zigup, "zigup"),
   (.JetbrainsToolbox, "JetBrains Toolbox"),
   (.AndroidStudio, "Android Studio plugins"),
   (.JetbrainsAqua, "JetBrains Aqua plugins"),
   (.JetbrainsClion, "JetBrains CLion plugins"),
   (.JetbrainsDatagrip, "JetBrains DataGrip plugins"),
   (.JetbrainsDataspell, "JetBrains DataSpell plugins"),
   (.JetbrainsGateway, "JetBrains Gateway plugins"),
   (.JetbrainsGoland, "JetBrains GoLand plugins"),
   (.JetbrainsIdea, "JetBrains IntelliJ IDEA plugins"),
   (.JetbrainsMps, "JetBrains MPS plugins"),
   (.JetbrainsPhpstorm, "JetBrains PhpStorm plugins"),
   (.JetbrainsPycharm, "JetBrains PyCharm plugins"),
   (.JetbrainsRider, "JetBrains Rider plugins"),
   (.JetbrainsRubymine, "JetBrains RubyMine plugins"),
   (.JetbrainsRustrover, "JetBrains RustRover plugins"),
   (.JetbrainsWebstorm, "JetBrains WebStorm plugins"),
   (.Yazi, "Yazi packages")]

/-- The configured remote targets that pass the filtering predicate
(`main.rs` line 197). -/
def remoteTargets (cfg : Config) (env : Env) : List String :=
  (cfg.remote_topgrades.getD []).filter
    (fun t => should_execute_remote cfg env.hostname t)

/-- The remote dispatch group (`main.rs` lines 196-202): one
`Step::Remotes` entry per accepted target. -/
def remoteEntries (cfg : Config) (env : Env) : List (Step × String) :=
  (remoteTargets cfg env).map
    (fun t => (Step.Remotes, "Remote (" ++ t ++ ")"))

/-- `main.rs` lines 508-512: the Powershell entry is attempted only when a
profile is present and the step is enabled. -/
def powershellEntries (cfg : Config) (env : Env) : List (Step × String) :=
  if env.powershellProfile && cfg.should_run .Powershell then
    [(.Powershell, "Powershell Modules Update")]
  else []

/-- `main.rs` lines 514-522: custom commands run through the runner under
`Step::CustomCommands`, filtered by `should_run_custom_command`. -/
def customEntries (cfg : Config) : List (Step × String) :=
  (cfg.commands.filter cfg.should_run_custom_command).map
    (fun name => (Step.CustomCommands, name))

/-- `main.rs` lines 524-533: one entry per collected Vagrant box (when the
step is enabled and collection succeeded), then the unconditional
"Vagrant boxes" entry. -/
def vagrantEntries (cfg : Config) (env : Env) : List (Step × String) :=
  (if cfg.should_run .Vagrant && env.vagrantCollectOk then
     env.vagrantBoxes.map (fun b => (Step.Vagrant, "Vagrant (" ++ b ++ ")"))
   else []) ++
  [(.Vagrant, "Vagrant boxes")]

/-- The full ordered catalog driven through `runner.execute` by `run()`,
in the exact source order of `main.rs`: remote dispatch (196-202), the
platform-specific block (204-310), the unix block (312-351), apm
(353-361), the generic block (364-506), Powershell (508-512), custom
commands (514-522) and Vagrant (524-533). -/
def mainCatalog (cfg : Config) (env : Env) : List (Step × String) :=
  remoteEntries cfg env ++
  platformEntries cfg.platform env.distributionOk ++
  unixEntries cfg.platform ++
  apmEntries cfg.platform ++
  genericEntries ++
  powershellEntries cfg env ++
  customEntries cfg ++
  vagrantEntries cfg env

/-! ## Command Executor (spec section 4.3) -/

/-- A command specification: program plus arguments. -/
structure CommandSpec where
  program : String
  args : List String

/-- Exit status of an external process. -/
inductive ExitStatus
  | success
  | code (n : Nat)
  deriving DecidableEq

/-- Modelled from the spec: `executor.rs` is not in the provided sources.
Error conditions of the Command Executor (spec section 4.3). -/
inductive ExecutionError
  | NotFound
  | NonZeroExit (n : Nat)
  | Interrupted
  deriving DecidableEq

/-- The outside world as seen by the Command Executor in Execute mode:
whether the target binary exists and what status running it yields. -/
structure ExecWorld where
  found : CommandSpec → Bool
  status : CommandSpec → ExitStatus

/-- Observable result of one Command Executor invocation: how many
processes were spawned, the dry-run representation printed (if any), and
the outcome. -/
structure ExecResult where
  spawned : Nat
  printedDryRun : Option String
  outcome : Except ExecutionError ExitStatus

/-- Modelled from the spec: `executor.rs` is not in the provided sources.
`run(context, command_spec)` (spec section 4.3).  In Simulate mode it
never spawns a process: it synthesizes a representation of what would run
and returns a synthetic success status.  In Execute mode it spawns the
external process (unless the binary is absent, which yields `NotFound`
without a process) and returns the raw exit status, a nonzero exit being
`NonZeroExit`. -/
def executorRun (rt : RunType) (w : ExecWorld) (c : CommandSpec) : ExecResult :=
  match rt with
  | .Simulate =>
    ⟨0, some (String.intercalate " " (c.program :: c.args)), .ok .success⟩
  | .Execute =>
    if w.found c then
      match w.status c with
      | .success => ⟨1, none, .ok .success⟩
      | .code n => ⟨1, none, .error (.NonZeroExit n)⟩
    else ⟨0, none, .error .NotFound⟩

/-! ## Runner (spec section 4.4) and the `run()` driver of `main.rs` -/

/-- The process-level fatal error class: a cancellation request observed
at a step boundary (spec sections 4.4 and 5). -/
inductive FatalError
  | cancelled
  deriving DecidableEq

/-- Events on the terminal / notification sinks in the part of `run()`
after the step loop: the summary separator (`main.rs` line 536), one
post-run custom command execution each (lines 551-557), and the final
desktop notification (lines 580-589). -/
inductive Event
  | summary
  | postCommand (name : String)
  | notified (failed : Bool)
  deriving DecidableEq

/-- The mutable state threaded through `run()`: the Runner's Report (an
insertion-ordered list of label/outcome pairs), the emitted events, the
number of step bodies invoked so far (used to index the environment
oracles), the elevation cache, and the post-run custom command
bookkeeping of `main.rs` lines 550-557. -/
structure RunSt where
  report : List (String × StepOutcome)
  events : List Event
  counter : Nat
  sudoCache : SudoState
  postRan : Nat
  postFailed : Bool
  deriving DecidableEq

def RunSt.init : RunSt := ⟨[], [], 0, SudoState.init, 0, false⟩

/-- Modelled from the spec: `runner.rs` is not in the provided sources.
`Runner::execute(step, label, body)` (spec section 4.4): if the step is
not enabled, return without touching the Report; a cancellation request
pending at the step boundary yields a `FatalError`; otherwise the body is
invoked inside the failure-isolating boundary and its outcome is
recorded (ok as Success, a step error as Failure, a not-applicable error
as Skipped) — body errors never propagate. -/
def executeStep (cfg : Config) (env : Env) (step : Step) (label : String)
    (st : RunSt) : RunSt × Option FatalError :=
  if !cfg.should_run step then (st, none)
  else if env.cancelled st.counter then (st, some .cancelled)
  else
    let outcome :=
      match env.body st.counter with
      | .ok => StepOutcome.success
      | .err => StepOutcome.failure
      | .notApplicable => StepOutcome.skipped
    ({ st with
        report := st.report ++ [(label, outcome)],
        counter := st.counter + 1 }, none)

/-- The sequential driver loop: each `runner.execute(...)?` call of
`main.rs` in order, short-circuiting on a `FatalError` exactly as the `?`
operator does. -/
def execList (cfg : Config) (env : Env) :
    List (Step × String) → RunSt → RunSt × Option FatalError
  | [], st => (st, none)
  | e :: rest, st =>
    match executeStep cfg env e.1 e.2 st with
    | (st2, none) => execList cfg env rest st2
    | (st2, some f) => (st2, some f)

/-- `main.rs` lines 155-163: the breaking-changes confirmation prompt is
shown when it should not be skipped and this is the first run of a major
release; a declined prompt calls `exit(1)` directly. -/
def declined (env : Env) : Bool :=
  env.breakingPromptNeeded && !env.confirmed

/-- `main.rs` lines 184-188: pre-run custom commands; the first failure is
propagated immediately by the `?` operator.  Returns the name of the
first failing command, if any. -/
def runPreCommands (env : Env) : List String → Nat → Option String
  | [], _ => none
  | name :: rest, k =>
    if env.preOk k then runPreCommands env rest (k + 1) else some name

/-- `main.rs` lines 190-194: when `pre_sudo` is configured and a sudo
helper was detected, elevation is requested up front; a failure is
propagated by the `?` operator.  Returns the updated state and whether
elevation succeeded. -/
def preSudoStage (cfg : Config) (env : Env) (st : RunSt) : RunSt × Bool :=
  if cfg.pre_sudo && env.sudoDetected then
    let r := elevate env.elevateFresh st.sudoCache
    ({ st with sudoCache := r.2 }, decide (r.1 = ElevateResult.elevated))
  else (st, true)

/-- `main.rs` lines 535-548: the summary is printed only when the Report
is non-empty. -/
def summaryStage (st : RunSt) : RunSt :=
  if st.report.isEmpty then st
  else { st with events := st.events ++ [Event.summary] }

/-- `main.rs` lines 550-557: every post-run custom command is executed;
a failure only sets `post_command_failed`, it never aborts. -/
def runPostCommands (env : Env) : List String → Nat → RunSt → RunSt
  | [], _, st => st
  | name :: rest, k, st =>
    runPostCommands env rest (k + 1)
      { st with
          events := st.events ++ [Event.postCommand name],
          postRan := st.postRan + 1,
          postFailed := st.postFailed || !env.postOk k }

/-- `main.rs` line 578: the overall failure flag. -/
def overallFailed (st : RunSt) : Bool :=
  st.postFailed || st.report.any (fun p => p.2.failed)

/-- `main.rs` lines 580-589: the desktop notification, unless
`skip_notify` is configured. -/
def notifyStage (cfg : Config) (st : RunSt) : RunSt :=
  if cfg.skip_notify then st
  else { st with events := st.events ++ [Event.notified (overallFailed st)] }

/-- The top-level error type of `run()` as inspected by `main()`: the
`StepFailed` sentinel from `error.rs`, an interrupted-I/O error, or any
other error.  (`error.rs` is not in the provided sources; `StepFailed`
is the marker type imported by `main.rs` line 25.) -/
inductive AppError
  | StepFailed
  | ioInterrupted
  | other (msg : String)
  deriving DecidableEq

/-- How `run()` terminates: a direct `exit(code)` call, `Ok(())`, or
`Err(e)`. -/
inductive RunRet
  | exited (code : Nat)
  | ok
  | error (e : AppError)
  deriving DecidableEq

/-- `main.rs` lines 535-595 after the step loop completed without a fatal
error: render the summary, run the post-run custom commands, (the
keep-at-end key menu of lines 559-576 is terminal-interaction glue
outside the execution core and is modelled as a no-op,) compute the
overall failure flag, notify, and return the `StepFailed` sentinel on
failure. -/
def runCompleted (cfg : Config) (env : Env) (st2 : RunSt) : RunSt × RunRet :=
  let st3 := summaryStage st2
  let st4 := runPostCommands env cfg.post_commands 0 st3
  let st5 := notifyStage cfg st4
  if overallFailed st4 then (st5, .error .StepFailed) else (st5, .ok)

/-- `run()` from `main.rs` lines 64-596, starting after `Config::load`
(the earlier part — CLI parsing, logging, completion/man generation,
tmux re-exec — is outside the execution core and none of its paths reach
the step loop).  The modelled build has the `self-update` feature
disabled, so the `Step::SelfUpdate` block of lines 165-175 is compiled
out. -/
def run (cfg : Config) (env : Env) : RunSt × RunRet :=
  if declined env then (RunSt.init, .exited 1)
  else
    match runPreCommands env cfg.pre_commands 0 with
    | some name =>
      (RunSt.init, .error (.other ("Failed to run command " ++ name)))
    | none =>
      match preSudoStage cfg env RunSt.init with
      | (st, false) => (st, .error (.other "Failed to elevate permissions"))
      | (st, true) =>
        match execList cfg env (mainCatalog cfg env) st with
        | (st2, some _) => (st2, .error .ioInterrupted)
        | (st2, none) => runCompleted cfg env st2

/-- `main()` error reporting, `main.rs` lines 611-622: the `StepFailed`
sentinel and interrupted I/O errors are not printed. -/
def skip_print : AppError → Bool
  | .StepFailed => true
  | .ioInterrupted => true
  | .other _ => false

/-- The message printed for an error that is not skipped
(`main.rs` line 621). -/
def errMsg : AppError → String
  | .other m => "Error: " ++ m
  | .StepFailed => "Error: StepFailed"
  | .ioInterrupted => "Error: interrupted"

/-- What `main()` observably does: the error messages it prints and the
process exit code. -/
structure MainOut where
  printed : List String
  exitCode : Nat
  deriving DecidableEq

/-- `main()` from `main.rs` lines 598-626 (without the Windows
`self-update` `Upgraded` branch, which is feature-gated out): `Ok` exits
0; an error is printed once unless it is the `StepFailed` sentinel or an
interrupted-I/O error, and the process exits 1.  A direct `exit(code)`
inside `run()` never reaches this match. -/
def mainHandle : RunRet → MainOut
  | .exited c => ⟨[], c⟩
  | .ok => ⟨[], 0⟩
  | .error e => ⟨if skip_print e then [] else [errMsg e], 1⟩

/-- The whole process: `run()` then `main()`'s handling of its result. -/
def mainOut (cfg : Config) (env : Env) : MainOut :=
  mainHandle (run cfg env).2

/-! ## Helper lemmas about the Runner loop -/

theorem executeStep_cases (cfg : Config) (env : Env) (step : Step)
    (label : String) (st : RunSt) :
    executeStep cfg env step label st = (st, none) ∨
    executeStep cfg env step label st = (st, some .cancelled) ∨
    ∃ o, executeStep cfg env step label st =
      ({ st with report := st.report ++ [(label, o)],
                 counter := st.counter + 1 }, none) := by
  unfold executeStep
  by_cases h1 : cfg.should_run step = true
  · by_cases h2 : env.cancelled st.counter = true
    · simp [h1, h2]
    · simp only [h1, Bool.not_true, Bool.false_eq_true, if_false, h2, if_neg]
      right; right
      exact ⟨_, rfl⟩
  · simp [Bool.not_eq_true] at h1
    simp [h1]

theorem executeStep_events (cfg : Config) (env : Env) (step : Step)
    (label : String) (st : RunSt) :
    ((executeStep cfg env step label st).1).events = st.events := by
  rcases executeStep_cases cfg env step label st with h | h | ⟨o, h⟩ <;> simp [h]

theorem executeStep_postRan (cfg : Config) (env : Env) (step : Step)
    (label : String) (st : RunSt) :
    ((executeStep cfg env step label st).1).postRan = st.postRan := by
  rcases executeStep_cases cfg env step label st with h | h | ⟨o, h⟩ <;> simp [h]

theorem executeStep_postFailed (cfg : Config) (env : Env) (step : Step)
    (label : String) (st : RunSt) :
    ((executeStep cfg env step label st).1).postFailed = st.postFailed := by
  rcases executeStep_cases cfg env step label st with h | h | ⟨o, h⟩ <;> simp [h]

theorem execList_events (cfg : Config) (env : Env) :
    ∀ (l : List (Step × String)) (st : RunSt),
      ((execList cfg env l st).1).events = st.events
  | [], _ => rfl
  | e :: rest, st => by
    unfold execList
    rcases executeStep_cases cfg env e.1 e.2 st with h | h | ⟨o, h⟩ <;>
      simp [h, execList_events cfg env rest]

theorem execList_postRan (cfg : Config) (env : Env) :
    ∀ (l : List (Step × String)) (st : RunSt),
      ((execList cfg env l st).1).postRan = st.postRan
  | [], _ => rfl
  | e :: rest, st => by
    unfold execList
    rcases executeStep_cases cfg env e.1 e.2 st with h | h | ⟨o, h⟩ <;>
      simp [h, execList_postRan cfg env rest]

theorem execList_postFailed (cfg : Config) (env : Env) :
    ∀ (l : List (Step × String)) (st : RunSt),
      ((execList cfg env l st).1).postFailed = st.postFailed
  | [], _ => rfl
  | e :: rest, st => by
    unfold execList
    rcases executeStep_cases cfg env e.1 e.2 st with h | h | ⟨o, h⟩ <;>
      simp [h, execList_postFailed cfg env rest]

/-- The Report grows by appending, and the labels appended are an ordered
subsequence of the labels of the list of steps driven through the loop:
execution is strictly sequential in catalog order. -/
theorem execList_report (cfg : Config) (env : Env) :
    ∀ (l : List (Step × String)) (st : RunSt),
      ∃ d, ((execList cfg env l st).1).report = st.report ++ d ∧
        List.Sublist (d.map Prod.fst) (l.map Prod.snd)
  | [], st => ⟨[], by simp [execList]⟩
  | e :: rest, st => by
    unfold execList
    rcases executeStep_cases cfg env e.1 e.2 st with h | h | ⟨o, h⟩
    · obtain ⟨d, hd, hs⟩ := execList_report cfg env rest st
      exact ⟨d, by simp [h, hd], by simpa using hs.cons e.2⟩
    · exact ⟨[], by simp [h], by simp⟩
    · obtain ⟨d, hd, hs⟩ :=
        execList_report cfg env rest
          { st with report := st.report ++ [(e.2, o)],
                    counter := st.counter + 1 }
      refine ⟨(e.2, o) :: d, ?_, ?_⟩
      · simp [h, hd]
      · simpa using hs.cons₂ e.2

/-- A loop that ends in a fatal error absorbs any further steps: the
remaining part of the catalog is never invoked. -/
theorem execList_append_fatal (cfg : Config) (env : Env) :
    ∀ (l1 l2 : List (Step × String)) (st : RunSt),
      (execList cfg env l1 st).2 ≠ none →
        execList cfg env (l1 ++ l2) st = execList cfg env l1 st
  | [], _, st => by simp [execList]
  | e :: rest, l2, st => by
    intro hf
    unfold execList at hf ⊢
    rcases executeStep_cases cfg env e.1 e.2 st with h | h | ⟨o, h⟩ <;>
      simp [h] at hf ⊢
    · exact execList_append_fatal cfg env rest l2 st hf
    · exact execList_append_fatal cfg env rest l2 _ hf

/-! ## Helper lemmas about the post-loop stages -/

theorem runPostCommands_report (env : Env) :
    ∀ (names : List String) (k : Nat) (st : RunSt),
      (runPostCommands env names k st).report = st.report
  | [], _, _ => rfl
  | _ :: rest, k, _ => runPostCommands_report env rest (k + 1) _

theorem runPostCommands_events (env : Env) :
    ∀ (names : List String) (k : Nat) (st : RunSt),
      (runPostCommands env names k st).events
        = st.events ++ names.map Event.postCommand
  | [], _, _ => by simp [runPostCommands]
  | name :: rest, k, st => by
    unfold runPostCommands
    rw [runPostCommands_events env rest (k + 1)]
    simp

theorem runPostCommands_postRan (env : Env) :
    ∀ (names : List String) (k : Nat) (st : RunSt),
      (runPostCommands env names k st).postRan = st.postRan + names.length
  | [], _, _ => rfl
  | name :: rest, k, st => by
    unfold runPostCommands
    rw [runPostCommands_postRan env rest (k + 1)]
    simp
    omega

theorem runPostCommands_postFailed (env : Env) :
    ∀ (names : List String) (k : Nat) (st : RunSt),
      ((runPostCommands env names k st).postFailed = true ↔
        (st.postFailed = true ∨
          ∃ i, i < names.length ∧ env.postOk (k + i) = false))
  | [], _, st => by simp [runPostCommands]
  | name :: rest, k, st => by
    unfold runPostCommands
    rw [runPostCommands_postFailed env rest (k + 1)]
    constructor
    · rintro (h | ⟨i, hi, hfail⟩)
      · rcases Bool.or_eq_true _ _ |>.mp h with h | h
        · exact Or.inl h
        · refine Or.inr ⟨0, by simp, ?_⟩
          simpa using h
      · exact Or.inr ⟨i + 1, by simpa using Nat.succ_lt_succ hi, by
          simpa [Nat.add_comm, Nat.add_assoc, Nat.add_left_comm] using hfail⟩
    · rintro (h | ⟨i, hi, hfail⟩)
      · exact Or.inl (by simp [h])
      · cases i with
        | zero =>
          left
          simp at hfail
          simp [hfail]
        | succ j =>
          right
          simp only [List.length_cons] at hi
          refine ⟨j, by omega, ?_⟩
          simpa [Nat.add_comm, Nat.add_assoc, Nat.add_left_comm] using hfail

theorem summaryStage_report (st : RunSt) :
    (summaryStage st).report = st.report := by
  unfold summaryStage; split <;> rfl

theorem summaryStage_postFailed (st : RunSt) :
    (summaryStage st).postFailed = st.postFailed := by
  unfold summaryStage; split <;> rfl

theorem summaryStage_postRan (st : RunSt) :
    (summaryStage st).postRan = st.postRan := by
  unfold summaryStage; split <;> rfl

theorem summaryStage_events (st : RunSt) :
    (summaryStage st).events
      = st.events ++ (if st.report.isEmpty then [] else [Event.summary]) := by
  unfold summaryStage; split <;> simp_all

theorem notifyStage_report (cfg : Config) (st : RunSt) :
    (notifyStage cfg st).report = st.report := by
  unfold notifyStage; split <;> rfl

theorem notifyStage_postFailed (cfg : Config) (st : RunSt) :
    (notifyStage cfg st).postFailed = st.postFailed := by
  unfold notifyStage; split <;> rfl

theorem notifyStage_postRan (cfg : Config) (st : RunSt) :
    (notifyStage cfg st).postRan = st.postRan := by
  unfold notifyStage; split <;> rfl

theorem notifyStage_events (cfg : Config) (st : RunSt) :
    (notifyStage cfg st).events
      = st.events ++
        (if cfg.skip_notify then [] else [Event.notified (overallFailed st)]) := by
  unfold notifyStage; split <;> simp_all

theorem overallFailed_congr {s t : RunSt} (hr : s.report = t.report)
    (hp : s.postFailed = t.postFailed) :
    overallFailed s = overallFailed t := by
  unfold overallFailed; rw [hr, hp]

theorem preSudoStage_report (cfg : Config) (env : Env) (st : RunSt) :
    ((preSudoStage cfg env st).1).report = st.report := by
  unfold preSudoStage; split <;> rfl

theorem preSudoStage_events (cfg : Config) (env : Env) (st : RunSt) :
    ((preSudoStage cfg env st).1).events = st.events := by
  unfold preSudoStage; split <;> rfl

theorem preSudoStage_postRan (cfg : Config) (env : Env) (st : RunSt) :
    ((preSudoStage cfg env st).1).postRan = st.postRan := by
  unfold preSudoStage; split <;> rfl

theorem preSudoStage_postFailed (cfg : Config) (env : Env) (st : RunSt) :
    ((preSudoStage cfg env st).1).postFailed = st.postFailed := by
  unfold preSudoStage; split <;> rfl

/-! ## Decomposition of `run` into its terminal shapes -/

theorem runCompleted_fst (cfg : Config) (env : Env) (st2 : RunSt) :
    (runCompleted cfg env st2).1
      = notifyStage cfg (runPostCommands env cfg.post_commands 0 (summaryStage st2)) := by
  unfold runCompleted
  dsimp only
  split <;> rfl

theorem runCompleted_report (cfg : Config) (env : Env) (st2 : RunSt) :
    ((runCompleted cfg env st2).1).report = st2.report := by
  rw [runCompleted_fst, notifyStage_report, runPostCommands_report,
    summaryStage_report]

theorem runCompleted_postFailed (cfg : Config) (env : Env) (st2 : RunSt) :
    ((runCompleted cfg env st2).1).postFailed
      = (runPostCommands env cfg.post_commands 0 (summaryStage st2)).postFailed := by
  rw [runCompleted_fst, notifyStage_postFailed]

theorem runCompleted_ret (cfg : Config) (env : Env) (st2 : RunSt) :
    (runCompleted cfg env st2).2
      = (if overallFailed (runPostCommands env cfg.post_commands 0 (summaryStage st2))
         then RunRet.error .StepFailed else RunRet.ok) := by
  unfold runCompleted
  dsimp only
  split <;> simp_all

theorem runCompleted_events (cfg : Config) (env : Env) (st2 : RunSt) :
    ((runCompleted cfg env st2).1).events
      = st2.events ++ (if st2.report.isEmpty then [] else [Event.summary]) ++
        cfg.post_commands.map Event.postCommand ++
        (if cfg.skip_notify then []
         else [Event.notified
           (overallFailed (runPostCommands env cfg.post_commands 0 (summaryStage st2)))]) := by
  rw [runCompleted_fst, notifyStage_events, runPostCommands_events,
    summaryStage_events]

theorem runCompleted_postRan (cfg : Config) (env : Env) (st2 : RunSt) :
    ((runCompleted cfg env st2).1).postRan
      = st2.postRan + cfg.post_commands.length := by
  rw [runCompleted_fst, notifyStage_postRan, runPostCommands_postRan,
    summaryStage_postRan]

/-- Every run terminates in one of five shapes: the declined
breaking-changes prompt (`exit(1)`), a propagated pre-command failure, a
propagated pre-sudo elevation failure, a fatal error inside the step
loop, or the completed epilogue. -/
theorem run_cases (cfg : Config) (env : Env) :
    (declined env = true ∧ run cfg env = (RunSt.init, .exited 1)) ∨
    (∃ name, run cfg env =
      (RunSt.init, .error (.other ("Failed to run command " ++ name)))) ∨
    (∃ st, run cfg env =
      (st, .error (.other "Failed to elevate permissions"))) ∨
    (∃ st2, run cfg env = (st2, .error .ioInterrupted) ∧
      (execList cfg env (mainCatalog cfg env)
        ((preSudoStage cfg env RunSt.init).1)).1 = st2 ∧
      (execList cfg env (mainCatalog cfg env)
        ((preSudoStage cfg env RunSt.init).1)).2 ≠ none) ∨
    (∃ st2, execList cfg env (mainCatalog cfg env)
        ((preSudoStage cfg env RunSt.init).1) = (st2, none) ∧
      run cfg env = runCompleted cfg env st2) := by
  unfold run
  by_cases hd : declined env = true
  · exact Or.inl ⟨hd, by simp [hd]⟩
  · rw [if_neg (by simpa using hd)]
    cases hpre : runPreCommands env cfg.pre_commands 0 with
    | some name => exact Or.inr (Or.inl ⟨name, rfl⟩)
    | none =>
      rcases hps : preSudoStage cfg env RunSt.init with ⟨st, b⟩
      cases b with
      | false =>
        refine Or.inr (Or.inr (Or.inl ⟨st, ?_⟩))
        simp [hps]
      | true =>
        rcases hex : execList cfg env (mainCatalog cfg env) st with ⟨st2, f⟩
        cases f with
        | some f0 =>
          refine Or.inr (Or.inr (Or.inr (Or.inl ⟨st2, ?_, ?_, ?_⟩)))
          · simp [hps, hex]
          · simp [hps, hex]
          · simp [hps, hex]
        | none =>
          refine Or.inr (Or.inr (Or.inr (Or.inr ⟨st2, ?_, ?_⟩)))
          · simp [hps, hex]
          · simp [hps, hex]

/-! ## Further helper lemmas -/

/-- A declined breaking-changes prompt makes `run` call `exit(1)`
immediately (`main.rs` line 161). -/
theorem run_declined (cfg : Config) (env : Env) (h : declined env = true) :
    run cfg env = (RunSt.init, .exited 1) := by
  simp [run, h]

theorem elevate_cached_eq (g : ElevateResult) (s : SudoState)
    (r : ElevateResult) (h : s.cached = some r) : elevate g s = (r, s) := by
  simp [elevate, h]

theorem elevateMany_cached_fix (r : ElevateResult) :
    ∀ (fs : List ElevateResult) (s : SudoState),
      s.cached = some r → elevateMany fs s = s
  | [], _, _ => rfl
  | f :: fs, s, h => by
    rw [elevateMany, elevate_cached_eq f s r h]
    exact elevateMany_cached_fix r fs s h

theorem runPreCommands_none_iff (env : Env) :
    ∀ (names : List String) (k : Nat),
      (runPreCommands env names k = none ↔
        ∀ i, i < names.length → env.preOk (k + i) = true)
  | [], k => by simp [runPreCommands]
  | name :: rest, k => by
    unfold runPreCommands
    by_cases hk : env.preOk k = true
    · rw [if_pos hk, runPreCommands_none_iff env rest (k + 1)]
      constructor
      · intro hall i hi
        cases i with
        | zero => simpa using hk
        | succ j =>
          simp only [List.length_cons] at hi
          have := hall j (by omega)
          simpa [Nat.add_comm, Nat.add_assoc, Nat.add_left_comm] using this
      · intro hall i hi
        have := hall (i + 1) (by simp only [List.length_cons]; omega)
        simpa [Nat.add_comm, Nat.add_assoc, Nat.add_left_comm] using this
    · rw [if_neg hk]
      simp only [reduceCtorEq, false_iff, not_forall]
      refine ⟨0, by simp, ?_⟩
      simpa using hk

/-- The state reaching the epilogue of a completed run has an empty event
log, no post-command bookkeeping, and `postFailed = false`. -/
theorem execList_state_from_init (cfg : Config) (env : Env)
    (l : List (Step × String)) :
    ((execList cfg env l ((preSudoStage cfg env RunSt.init).1)).1).events = [] ∧
    ((execList cfg env l ((preSudoStage cfg env RunSt.init).1)).1).postRan = 0 ∧
    ((execList cfg env l ((preSudoStage cfg env RunSt.init).1)).1).postFailed
      = false := by
  refine ⟨?_, ?_, ?_⟩
  · rw [execList_events, preSudoStage_events]; rfl
  · rw [execList_postRan, preSudoStage_postRan]; rfl
  · rw [execList_postFailed, preSudoStage_postFailed]; rfl

theorem StepOutcome.failed_iff (o : StepOutcome) :
    o.failed = true ↔ o = .failure := by
  cases o <;> simp [StepOutcome.failed]

/-! ## Claim theorems -/

/-- Claim C5: in Simulate (dry-run) mode the Command Executor never spawns
an external process for any command spec; it synthesizes the command
representation and returns a synthetic success status, so no step can
fail due to actual execution in this mode. -/
theorem simulate_mode_never_spawns (w : ExecWorld) (c : CommandSpec) :
    (executorRun (RunType.new true) w c).spawned = 0 ∧
    (executorRun (RunType.new true) w c).printedDryRun
      = some (String.intercalate " " (c.program :: c.args)) ∧
    (executorRun (RunType.new true) w c).outcome = .ok .success :=
  ⟨rfl, rfl, rfl⟩

/-- Claim C6: every remote dispatch step is executed only for targets
accepted by the filtering predicate given the local hostname, and a
target equal to the current host is excluded — the program never
dispatches an upgrade pass to itself. -/
theorem remote_dispatch_excludes_self (cfg : Config) (env : Env) :
    env.hostname ∉ remoteTargets cfg env ∧
    (∀ t ∈ remoteTargets cfg env,
      should_execute_remote cfg env.hostname t = true ∧ t ≠ env.hostname) ∧
    remoteEntries cfg env
      = (remoteTargets cfg env).map
          (fun t => (Step.Remotes, "Remote (" ++ t ++ ")")) := by
  refine ⟨?_, ?_, rfl⟩
  · intro hmem
    have h := (List.mem_filter.mp hmem).2
    simp [should_execute_remote] at h
  · intro t ht
    have h := (List.mem_filter.mp ht).2
    refine ⟨h, ?_⟩
    simp only [should_execute_remote, Bool.and_eq_true, decide_eq_true_eq] at h
    exact h.1

/-- Claim C7: privilege elevation is performed at most once per process:
the first call resolves and caches the elevation state, every subsequent
call is a no-op returning the cached result, and over any sequence of
calls from the initial state the resolution is performed at most once. -/
theorem elevation_at_most_once (f g : ElevateResult) (s : SudoState)
    (fs : List ElevateResult) :
    elevate g (elevate f s).2 = ((elevate f s).1, (elevate f s).2) ∧
    (elevateMany fs SudoState.init).resolutions ≤ 1 := by
  constructor
  · cases hc : s.cached with
    | some r => simp [elevate, hc]
    | none => simp [elevate, hc]
  · cases fs with
    | nil => simp [elevateMany, SudoState.init]
    | cons f0 fs0 =>
      rw [elevateMany]
      have h1 : (elevate f0 SudoState.init).2 = ⟨some f0, 1⟩ := by
        simp [elevate, SudoState.init]
      rw [h1, elevateMany_cached_fix f0 fs0 ⟨some f0, 1⟩ rfl]

/-- Claim C1: the process exit code is 0 when the run succeeds, and 1
whenever any recorded step outcome is a Failure, or a post-run custom
command failed, or the user declined the breaking-changes confirmation
prompt; no other exit codes are produced on these paths. -/
theorem exit_code_contract (cfg : Config) (env : Env) :
    ((run cfg env).2 = RunRet.ok → (mainOut cfg env).exitCode = 0) ∧
    ((((run cfg env).1).report.any (fun p => p.2.failed) = true ∨
        ((run cfg env).1).postFailed = true ∨ declined env = true) →
      (mainOut cfg env).exitCode = 1) ∧
    ((mainOut cfg env).exitCode = 0 ∨ (mainOut cfg env).exitCode = 1) := by
  rcases run_cases cfg env with ⟨hd, hr⟩ | ⟨name, hr⟩ | ⟨st, hr⟩ |
    ⟨st2, hr, _, _⟩ | ⟨st2, hex, hr⟩
  · refine ⟨?_, ?_, ?_⟩ <;> simp [mainOut, mainHandle, hr]
  · refine ⟨?_, ?_, ?_⟩ <;> simp [mainOut, mainHandle, hr, skip_print]
  · refine ⟨?_, ?_, ?_⟩ <;> simp [mainOut, mainHandle, hr, skip_print]
  · refine ⟨?_, ?_, ?_⟩ <;> simp [mainOut, mainHandle, hr, skip_print]
  · have hret := runCompleted_ret cfg env st2
    by_cases hof : overallFailed (runPostCommands env cfg.post_commands 0
        (summaryStage st2)) = true
    · rw [if_pos hof] at hret
      refine ⟨?_, ?_, ?_⟩ <;>
        simp [mainOut, mainHandle, hr, hret, skip_print]
    · rw [if_neg hof] at hret
      simp only [overallFailed, Bool.or_eq_true, not_or,
        Bool.not_eq_true] at hof
      refine ⟨?_, ?_, ?_⟩
      · intro _
        simp [mainOut, mainHandle, hr, hret]
      · intro hfail
        exfalso
        rcases hfail with hfail | hfail | hfail
        · rw [hr, runCompleted_report] at hfail
          have h2 := hof.2
          rw [runPostCommands_report, summaryStage_report] at h2
          simp [hfail] at h2
        · rw [hr, runCompleted_postFailed] at hfail
          simp [hfail] at hof
        · have hdec := run_declined cfg env hfail
          rw [hr] at hdec
          have h2 := congrArg Prod.snd hdec
          simp only [hret] at h2
          exact RunRet.noConfusion h2
      · left
        simp [mainOut, mainHandle, hr, hret]

/-- Claim C2: on a completed run, the overall failure flag (equivalently,
returning the `StepFailed` sentinel) holds if and only if the final
Report contains at least one Failure entry or a post-run custom command
failed; an all-Skipped (or empty) Report with no post-command failure
yields overall success. -/
theorem overall_failure_flag_iff (cfg : Config) (env : Env)
    (h : (run cfg env).2 = RunRet.ok ∨
      (run cfg env).2 = RunRet.error .StepFailed) :
    ((run cfg env).2 = RunRet.error .StepFailed ↔
      ((∃ p ∈ ((run cfg env).1).report, p.2 = StepOutcome.failure) ∨
        ((run cfg env).1).postFailed = true)) ∧
    (((run cfg env).1).postFailed = true ↔
      ∃ i, i < cfg.post_commands.length ∧ env.postOk i = false) ∧
    ((∀ p ∈ ((run cfg env).1).report, p.2 = StepOutcome.skipped) →
      ((run cfg env).1).postFailed = false → (run cfg env).2 = RunRet.ok) := by
  rcases run_cases cfg env with ⟨hd, hr⟩ | ⟨name, hr⟩ | ⟨st, hr⟩ |
    ⟨st2, hr, _, _⟩ | ⟨st2, hex, hr⟩
  · rw [hr] at h; simp at h
  · rw [hr] at h; simp at h
  · rw [hr] at h; simp at h
  · rw [hr] at h; simp at h
  · have hret := runCompleted_ret cfg env st2
    have hrep : ((run cfg env).1).report = st2.report := by
      rw [hr, runCompleted_report]
    have hpostf : ((run cfg env).1).postFailed
        = (runPostCommands env cfg.post_commands 0 (summaryStage st2)).postFailed := by
      rw [hr, runCompleted_postFailed]
    have hst2pf : st2.postFailed = false := by
      have := (execList_state_from_init cfg env (mainCatalog cfg env)).2.2
      rw [hex] at this
      exact this
    have hchar := runPostCommands_postFailed env cfg.post_commands 0
      (summaryStage st2)
    rw [summaryStage_postFailed, hst2pf] at hchar
    have hof : overallFailed (runPostCommands env cfg.post_commands 0
        (summaryStage st2))
        = ((runPostCommands env cfg.post_commands 0
            (summaryStage st2)).postFailed || st2.report.any (fun p => p.2.failed)) := by
      unfold overallFailed
      rw [runPostCommands_report, summaryStage_report]
    refine ⟨?_, ?_, ?_⟩
    · rw [hr, hret, runCompleted_report, runCompleted_postFailed, hof]
      by_cases hb : ((runPostCommands env cfg.post_commands 0
          (summaryStage st2)).postFailed
            || st2.report.any (fun p => p.2.failed)) = true
      · rw [if_pos hb]
        simp only [true_iff]
        rcases Bool.or_eq_true _ _ |>.mp hb with hb1 | hb1
        · exact Or.inr hb1
        · left
          obtain ⟨p, hp, hpf⟩ := List.any_eq_true.mp hb1
          exact ⟨p, hp, (StepOutcome.failed_iff p.2).mp hpf⟩
      · rw [if_neg hb]
        simp only [Bool.or_eq_true, not_or, Bool.not_eq_true] at hb
        constructor
        · intro hcon
          exact RunRet.noConfusion hcon
        · rintro (⟨p, hp, hpf⟩ | hb1)
          · exfalso
            have : st2.report.any (fun q => q.2.failed) = true :=
              List.any_eq_true.mpr ⟨p, hp, (StepOutcome.failed_iff p.2).mpr hpf⟩
            simp [this] at hb
          · exfalso
            simp [hb1] at hb
    · rw [hpostf, hchar]
      simp
    · intro hall hnopost
      rw [hr, hret, if_neg ?_]
      rw [hof]
      rw [hpostf] at hnopost
      rw [hnopost]
      simp only [Bool.false_or]
      intro hany
      obtain ⟨p, hp, hpf⟩ := List.any_eq_true.mp hany
      rw [hrep] at hall
      have := hall p hp
      rw [this] at hpf
      exact Bool.noConfusion hpf

/-- Concrete run for claim C3: every catalog step is enabled, the first
step body succeeds, and the cancellation flag is observed at the second
step boundary. -/
def cfgC3 : Config :=
  ⟨false, [], [], [], fun _ => true, fun _ => false, none, fun _ => true,
   false, false, true, Platform.linux⟩

def envC3 : Env :=
  ⟨fun _ => .ok, fun n => decide (1 ≤ n), "local", true, false, false, true,
   fun _ => true, fun _ => true, false, .elevated, false, []⟩

/-- Claim C3 counterexample: at this concrete run a FatalError
(cancellation) is returned by the Runner during the step loop; the
partial Report is non-empty, yet no summary event is ever emitted —
`run()` propagates the error (the `?` on `runner.execute`) before
reaching the summary block of `main.rs` lines 535-548, refuting "the
partial Report accumulated so far is still rendered for display". -/
theorem fatal_report_not_rendered_counterexample :
    (run cfgC3 envC3).2 = RunRet.error .ioInterrupted ∧
    (run cfgC3 envC3).1.report = [("packer.nu", .success)] ∧
    Event.summary ∉ (run cfgC3 envC3).1.events :=
  ⟨by decide, by decide, by decide⟩

/-- Claim C3 (amended): when a FatalError (e.g. cancellation) is returned
by the Runner's execute during the step loop, the remaining steps are
aborted and `run()` propagates the error immediately; the partial Report
accumulated so far is retained in the runner state but is NOT rendered —
no summary is printed, the post-run commands are skipped, and the
process exits with code 1. -/
theorem fatal_aborts_without_rendering (cfg : Config) (env : Env)
    (h : (run cfg env).2 = RunRet.error .ioInterrupted) :
    Event.summary ∉ (run cfg env).1.events ∧
    (run cfg env).1.postRan = 0 ∧
    (mainOut cfg env).exitCode = 1 ∧
    (∀ (l1 l2 : List (Step × String)) (st : RunSt),
      (execList cfg env l1 st).2 ≠ none →
        execList cfg env (l1 ++ l2) st = execList cfg env l1 st) := by
  rcases run_cases cfg env with ⟨hd, hr⟩ | ⟨name, hr⟩ | ⟨st, hr⟩ |
    ⟨st2, hr, hst2, _⟩ | ⟨st2, hex, hr⟩
  · rw [hr] at h; simp at h
  · rw [hr] at h; simp at h
  · rw [hr] at h; simp at h
  · refine ⟨?_, ?_, ?_, ?_⟩
    · rw [hr]
      have hev := (execList_state_from_init cfg env (mainCatalog cfg env)).1
      rw [hst2] at hev
      simp [hev]
    · rw [hr]
      have hpr := (execList_state_from_init cfg env (mainCatalog cfg env)).2.1
      rw [hst2] at hpr
      exact hpr
    · simp [mainOut, mainHandle, hr, skip_print]
    · exact execList_append_fatal cfg env
  · exfalso
    have hret := runCompleted_ret cfg env st2
    rw [hr, hret] at h
    by_cases hb : overallFailed (runPostCommands env cfg.post_commands 0
        (summaryStage st2)) = true
    · rw [if_pos hb] at h
      simp at h
    · rw [if_neg hb] at h
      simp at h

/-- Claim C4: steps execute strictly sequentially in one fixed order per
run.  First conjunct: in the catalog driven through the Runner, the
platform-specific group comes (as a contiguous block) before the
cross-platform generic group, which comes before the custom-commands
group.  Second conjunct: the loop apppends to the Report in exactly the
catalog order — the recorded labels are an ordered subsequence of the
catalog labels, so no two step bodies run out of this order (and the
model is single-threaded by construction: one body at a time). -/
theorem steps_sequential_fixed_order (cfg : Config) (env : Env) :
    (∃ a b c d, mainCatalog cfg env =
      a ++ platformEntries cfg.platform env.distributionOk ++ b ++
      genericEntries ++ c ++ customEntries cfg ++ d) ∧
    (∀ (l : List (Step × String)) (st : RunSt), ∃ delta,
      ((execList cfg env l st).1).report = st.report ++ delta ∧
      List.Sublist (delta.map Prod.fst) (l.map Prod.snd)) := by
  constructor
  · refine ⟨remoteEntries cfg env,
      unixEntries cfg.platform ++ apmEntries cfg.platform,
      powershellEntries cfg env, vagrantEntries cfg env, ?_⟩
    simp [mainCatalog, List.append_assoc]
  · exact execList_report cfg env

/-- Claim C8: the distinguished sentinel error `StepFailed` — returned
exactly when the run ends in overall failure — has exit code 1 as its
sole effect: `main` prints no message for it, and likewise for an
interrupted-I/O error, while every other error is printed exactly once
before exiting with code 1.  The last two conjuncts tie the sentinel to
the overall failure flag of the run. -/
theorem sentinel_error_sole_effect_exit_one (cfg : Config) (env : Env) :
    mainHandle (.error .StepFailed) = ⟨[], 1⟩ ∧
    mainHandle (.error .ioInterrupted) = ⟨[], 1⟩ ∧
    (∀ m, mainHandle (.error (.other m)) = ⟨["Error: " ++ m], 1⟩) ∧
    ((run cfg env).2 = RunRet.ok → overallFailed (run cfg env).1 = false) ∧
    (overallFailed (run cfg env).1 = true →
      (mainOut cfg env).exitCode = 1) ∧
    (((run cfg env).2 = RunRet.ok ∨
        (run cfg env).2 = RunRet.error .StepFailed) →
      overallFailed (run cfg env).1 = true →
      (run cfg env).2 = RunRet.error .StepFailed) := by
  refine ⟨rfl, rfl, fun m => rfl, ?_, ?_, ?_⟩ <;>
  · rcases run_cases cfg env with ⟨hd, hr⟩ | ⟨name, hr⟩ | ⟨st, hr⟩ |
      ⟨st2, hr, _, _⟩ | ⟨st2, hex, hr⟩
    · simp [mainOut, mainHandle, hr]
    · simp [mainOut, mainHandle, hr, skip_print]
    · simp [mainOut, mainHandle, hr, skip_print]
    · simp [mainOut, mainHandle, hr, skip_print]
    · have hret := runCompleted_ret cfg env st2
      have hovr : overallFailed ((runCompleted cfg env st2).1)
          = overallFailed (runPostCommands env cfg.post_commands 0
              (summaryStage st2)) := by
        apply overallFailed_congr
        · rw [runCompleted_report, runPostCommands_report, summaryStage_report]
        · rw [runCompleted_postFailed]
      by_cases hb : overallFailed (runPostCommands env cfg.post_commands 0
          (summaryStage st2)) = true
      · rw [if_pos hb] at hret
        simp [mainOut, mainHandle, hr, hret, skip_print, hovr, hb]
      · rw [if_neg hb] at hret
        simp only [Bool.not_eq_true] at hb
        simp [mainOut, mainHandle, hr, hret, hovr, hb]

/-- Claim C9: pre-run custom commands are not failure-isolated — if one of
them fails, `run()` propagates the error immediately (the `?` at
`main.rs` line 186): the run aborts with exit code 1 before any catalog
step is invoked (empty Report, no post-run command executed), and the
error is an ordinary error, not the `StepFailed` sentinel.  In contrast,
the post-run custom command stage is total: it always runs all post
commands (their failures only set the overall failure flag). -/
theorem pre_commands_not_isolated (cfg : Config) (env : Env)
    (hd : declined env = false)
    (hpre : ∃ k, k < cfg.pre_commands.length ∧ env.preOk k = false) :
    (∃ name, (run cfg env).2
      = RunRet.error (.other ("Failed to run command " ++ name))) ∧
    (run cfg env).1.report = [] ∧
    (run cfg env).1.postRan = 0 ∧
    (mainOut cfg env).exitCode = 1 ∧
    (∀ (names : List String) (k : Nat) (st : RunSt),
      (runPostCommands env names k st).postRan = st.postRan + names.length) := by
  have hsome : runPreCommands env cfg.pre_commands 0 ≠ none := by
    intro hnone
    obtain ⟨k, hk, hfail⟩ := hpre
    have := (runPreCommands_none_iff env cfg.pre_commands 0).mp hnone k hk
    rw [Nat.zero_add] at this
    rw [this] at hfail
    exact Bool.noConfusion hfail
  cases hp : runPreCommands env cfg.pre_commands 0 with
  | none => exact absurd hp hsome
  | some name =>
    have hrun : run cfg env
        = (RunSt.init, .error (.other ("Failed to run command " ++ name))) := by
      unfold run
      rw [if_neg (by simp [hd]), hp]
    refine ⟨⟨name, by rw [hrun]⟩, by rw [hrun]; rfl, by rw [hrun]; rfl, ?_,
      runPostCommands_postRan env⟩
    simp [mainOut, mainHandle, hrun, skip_print]

/-- Claim C10: on a completed run the event log is exactly: the summary
(emitted only when the Report is non-empty) first, then one event per
post-run custom command, then the notification — so the summary is
rendered before any post-run custom command executes; and the post-run
command stage never touches the Report, so post-run custom commands
never appear in the printed Report. -/
theorem summary_before_post_commands (cfg : Config) (env : Env)
    (h : (run cfg env).2 = RunRet.ok ∨
      (run cfg env).2 = RunRet.error .StepFailed) :
    (run cfg env).1.events
      = (if (run cfg env).1.report.isEmpty then [] else [Event.summary]) ++
        cfg.post_commands.map Event.postCommand ++
        (if cfg.skip_notify then []
         else [Event.notified (overallFailed (run cfg env).1)]) ∧
    (∀ (names : List String) (k : Nat) (st : RunSt),
      (runPostCommands env names k st).report = st.report) := by
  rcases run_cases cfg env with ⟨hd, hr⟩ | ⟨name, hr⟩ | ⟨st, hr⟩ |
    ⟨st2, hr, _, _⟩ | ⟨st2, hex, hr⟩
  · rw [hr] at h; simp at h
  · rw [hr] at h; simp at h
  · rw [hr] at h; simp at h
  · rw [hr] at h; simp at h
  · refine ⟨?_, runPostCommands_report env⟩
    have hev2 : st2.events = [] := by
      have := (execList_state_from_init cfg env (mainCatalog cfg env)).1
      rw [hex] at this
      exact this
    have hovr : overallFailed ((runCompleted cfg env st2).1)
        = overallFailed (runPostCommands env cfg.post_commands 0
            (summaryStage st2)) := by
      apply overallFailed_congr
      · rw [runCompleted_report, runPostCommands_report, summaryStage_report]
      · rw [runCompleted_postFailed]
    rw [hr, runCompleted_events, runCompleted_report, hovr, hev2]
    simp

/-! ## Witnesses: the claim theorems applied at concrete runs -/

/-- Concrete run for the C1 witness: nothing enabled, nothing fails. -/
def cfgC1w : Config :=
  ⟨false, [], [], [], fun _ => false, fun _ => false, none, fun _ => true,
   false, false, true, Platform.linux⟩

def envC1w : Env :=
  ⟨fun _ => .ok, fun _ => false, "local", true, false, false, true,
   fun _ => true, fun _ => true, false, .elevated, false, []⟩

theorem exit_code_contract_witness :
    (mainOut cfgC1w envC1w).exitCode = 0 :=
  (exit_code_contract cfgC1w envC1w).1 (by decide)

/-- Concrete run for the C2 witness: no step enabled, one failing
post-run custom command. -/
def cfgC2w : Config :=
  ⟨false, [], ["cleanup"], [], fun _ => false, fun _ => false, none,
   fun _ => true, false, false, true, Platform.linux⟩

def envC2w : Env :=
  ⟨fun _ => .ok, fun _ => false, "local", true, false, false, true,
   fun _ => true, fun _ => false, false, .elevated, false, []⟩

theorem overall_failure_flag_iff_witness :
    ((run cfgC2w envC2w).1).postFailed = true ↔
      ∃ i, i < cfgC2w.post_commands.length ∧ envC2w.postOk i = false :=
  (overall_failure_flag_iff cfgC2w envC2w (Or.inr (by decide))).2.1

theorem fatal_aborts_without_rendering_witness :
    Event.summary ∉ (run cfgC3 envC3).1.events ∧
    (mainOut cfgC3 envC3).exitCode = 1 :=
  ⟨(fatal_aborts_without_rendering cfgC3 envC3 (by decide)).1,
   (fatal_aborts_without_rendering cfgC3 envC3 (by decide)).2.2.1⟩

/-- Concrete run for the C6 witness: two configured targets, one of which
is the local host. -/
def cfgC6w : Config :=
  ⟨false, [], [], [], fun _ => false, fun _ => false,
   some ["alpha", "myhost"], fun _ => true, false, false, true,
   Platform.linux⟩

def envC6w : Env :=
  ⟨fun _ => .ok, fun _ => false, "myhost", true, false, false, true,
   fun _ => true, fun _ => true, false, .elevated, false, []⟩

theorem remote_dispatch_excludes_self_witness :
    envC6w.hostname ∉ remoteTargets cfgC6w envC6w ∧
    remoteTargets cfgC6w envC6w = ["alpha"] :=
  ⟨(remote_dispatch_excludes_self cfgC6w envC6w).1, by decide⟩

/-- Concrete run for the C8 witness: one enabled step whose body fails. -/
def cfgC8w : Config :=
  ⟨false, [], [], [], fun s => decide (s = Step.Fossil), fun _ => false,
   none, fun _ => true, false, false, true, Platform.linux⟩

def envC8w : Env :=
  ⟨fun _ => .err, fun _ => false, "local", true, false, false, true,
   fun _ => true, fun _ => true, false, .elevated, false, []⟩

theorem sentinel_error_sole_effect_exit_one_witness :
    (mainOut cfgC8w envC8w).exitCode = 1 :=
  (sentinel_error_sole_effect_exit_one cfgC8w envC8w).2.2.2.2.1 (by decide)

/-- Concrete run for the C9 witness: one failing pre-run custom command. -/
def cfgC9w : Config :=
  ⟨false, ["setup"], ["cleanup"], [], fun _ => false, fun _ => false, none,
   fun _ => true, false, false, true, Platform.linux⟩

def envC9w : Env :=
  ⟨fun _ => .ok, fun _ => false, "local", true, false, false, true,
   fun _ => false, fun _ => true, false, .elevated, false, []⟩

theorem pre_commands_not_isolated_witness :
    (∃ name, (run cfgC9w envC9w).2
      = RunRet.error (.other ("Failed to run command " ++ name))) ∧
    (run cfgC9w envC9w).1.report = [] ∧
    (run cfgC9w envC9w).1.postRan = 0 ∧
    (mainOut cfgC9w envC9w).exitCode = 1 := by
  have h := pre_commands_not_isolated cfgC9w envC9w (by decide)
    ⟨0, by decide, by decide⟩
  exact ⟨h.1, h.2.1, h.2.2.1, h.2.2.2.1⟩

/-- Concrete run for the C10 witness: one enabled succeeding step, one
succeeding post-run custom command, notifications on. -/
def cfgC10w : Config :=
  ⟨false, [], ["cleanup"], [], fun s => decide (s = Step.Fossil),
   fun _ => false, none, fun _ => true, false, false, false,
   Platform.linux⟩

def envC10w : Env :=
  ⟨fun _ => .ok, fun _ => false, "local", true, false, false, true,
   fun _ => true, fun _ => true, false, .elevated, false, []⟩

theorem summary_before_post_commands_witness :
    (run cfgC10w envC10w).1.events
      = (if (run cfgC10w envC10w).1.report.isEmpty then []
         else [Event.summary]) ++
        cfgC10w.post_commands.map Event.postCommand ++
        (if cfgC10w.skip_notify then []
         else [Event.notified (overallFailed (run cfgC10w envC10w).1)]) :=
  (summary_before_post_commands cfgC10w envC10w (Or.inl (by decide))).1

end Topgrade
